import Mathlib

/-!
Verification of the 4D geometry/transform engine of the threejs-tesseract
repository (src/unnamed/part_001).

The source manipulates THREE.js Matrix4 objects.  The relevant THREE.js
semantics, which this embedding follows:
  - Matrix4.fromArray reads 16 elements in column-major order: entry
    (row r, column c) comes from array position 4*c + r;
  - Matrix4.toArray writes the 16 elements in column-major order;
  - Matrix4.multiply(m) post-multiplies (this = this * m);
  - Matrix4.premultiply(m) pre-multiplies (this = m * this);
  - Matrix4.identity() sets the identity matrix.
JS numbers are modelled by real numbers; all quantities the claims touch
are exact values (cosines/sines of symbolic angles, halves of side
lengths), so no floating-point rounding is modelled.
-/

open Real

namespace Tesseract

/-- 4×4 real matrix; `m r c` is the entry at row `r`, column `c`. -/
abbrev Mat4 := Fin 4 → Fin 4 → ℝ

/-- THREE.Matrix4.fromArray: the 16 array elements are consumed in
column-major order, so entry (r, c) is array element `4*c + r`.
Out-of-range reads (which in JS would produce `undefined`/NaN) default
to 0; they are never exercised by the theorems below, whose buffers have
length divisible by 16. -/
def mat4FromList (l : List ℝ) : Mat4 := fun r c => l.getD (4 * c.val + r.val) 0

/-- THREE.Matrix4.toArray: the 16 entries are written in column-major
order. -/
def mat4ToList (m : Mat4) : List ℝ :=
  [m 0 0, m 1 0, m 2 0, m 3 0,
   m 0 1, m 1 1, m 2 1, m 3 1,
   m 0 2, m 1 2, m 2 2, m 3 2,
   m 0 3, m 1 3, m 2 3, m 3 3]

/-- Matrix product, as computed (unrolled) by THREE.Matrix4.multiplyMatrices. -/
def matMul (A B : Mat4) : Mat4 := fun r c =>
  A r 0 * B 0 c + A r 1 * B 1 c + A r 2 * B 2 c + A r 3 * B 3 c

/-- THREE.Matrix4.identity(). -/
def mat4Identity : Mat4 := fun r c => if r = c then 1 else 0

/-- The six rotation angles held in `Object4D.rot`. -/
structure Rot where
  xy : ℝ
  xz : ℝ
  yz : ℝ
  xt : ℝ
  yt : ℝ
  zt : ℝ

/-- The field initializer `rot = { xy: 0, xz: 0, yz: 0, xt: 0, yt: 0, zt: 0 }`. -/
def rotZero : Rot := ⟨0, 0, 0, 0, 0, 0⟩

/-- The matrix `dXY` of `updateMatrix4D`, literally
`fromArray([cos xy, sin xy, 0, 0, -sin xy, cos xy, 0, 0, 0,0,1,0, 0,0,0,1])`. -/
noncomputable def dXY (xy : ℝ) : Mat4 := mat4FromList
  [cos xy, sin xy, 0, 0,
   -sin xy, cos xy, 0, 0,
   0, 0, 1, 0,
   0, 0, 0, 1]

/-- The matrix `dYZ` of `updateMatrix4D`. -/
noncomputable def dYZ (yz : ℝ) : Mat4 := mat4FromList
  [1, 0, 0, 0,
   0, cos yz, sin yz, 0,
   0, -sin yz, cos yz, 0,
   0, 0, 0, 1]

/-- The matrix `dXZ` of `updateMatrix4D`. -/
noncomputable def dXZ (xz : ℝ) : Mat4 := mat4FromList
  [cos xz, 0, sin xz, 0,
   0, 1, 0, 0,
   -sin xz, 0, cos xz, 0,
   0, 0, 0, 1]

/-- The matrix `dXT` of `updateMatrix4D`. -/
noncomputable def dXT (xt : ℝ) : Mat4 := mat4FromList
  [cos xt, 0, 0, sin xt,
   0, 1, 0, 0,
   0, 0, 1, 0,
   -sin xt, 0, 0, cos xt]

/-- The matrix `dYT` of `updateMatrix4D`. -/
noncomputable def dYT (yt : ℝ) : Mat4 := mat4FromList
  [1, 0, 0, 0,
   0, cos yt, 0, sin yt,
   0, 0, 1, 0,
   0, -sin yt, 0, cos yt]

/-- The matrix `dZT` of `updateMatrix4D`. -/
noncomputable def dZT (zt : ℝ) : Mat4 := mat4FromList
  [1, 0, 0, 0,
   0, 1, 0, 0,
   0, 0, cos zt, sin zt,
   0, 0, -sin zt, cos zt]

/-- The matrix computed by `Object4D.updateMatrix4D`:
`matrix4D.identity(); matrix4D.multiply(dXT); ... ; matrix4D.multiply(dXZ)`,
i.e. the six elementary matrices right-multiplied in the fixed order
xt, yt, zt, xy, yz, xz onto an identity accumulator. -/
noncomputable def computeMatrix4D (r : Rot) : Mat4 :=
  matMul (matMul (matMul (matMul (matMul (matMul mat4Identity
    (dXT r.xt)) (dYT r.yt)) (dZT r.zt)) (dXY r.xy)) (dYZ r.yz)) (dXZ r.xz)

/-- One pass of the loop body of `Object4D.updateVertexes` over the whole
buffer: each complete block of 16 reals is read with
`vectors4.fromArray(originalVertexes, i)` (column-major), pre-multiplied by
the matrix (`vectors4.premultiply(matrix4D)`), and written back with
`vectors4.toArray(transformedVertexes, i)` (column-major).  The JS loop
`for (i = 0; i < length; i += 16)` also runs on a trailing partial block,
where its out-of-range reads yield NaN garbage; that regime is outside
every claim (the spec requires buffer lengths divisible by 16), and the
model leaves such a tail unchanged. -/
def applyBlocks (M : Mat4) : List ℝ → List ℝ
  | x0 :: x1 :: x2 :: x3 :: x4 :: x5 :: x6 :: x7 ::
    x8 :: x9 :: x10 :: x11 :: x12 :: x13 :: x14 :: x15 :: rest =>
      mat4ToList (matMul M (mat4FromList
        [x0, x1, x2, x3, x4, x5, x6, x7, x8, x9, x10, x11, x12, x13, x14, x15])) ++
      applyBlocks M rest
  | rest => rest

/-- The `Object4D` state: the two flat vertex buffers, the stored edge and
face index lists (the THREE geometry objects built from them are display
concerns and are not modelled), the rotation angles, and the private
transform matrix. -/
structure Object4D where
  vertexes : List ℝ
  transformedVertexes : List ℝ
  edgesIdx : List (ℕ × ℕ)
  facesIdx : List (ℕ × ℕ × ℕ)
  rot : Rot
  matrix4D : Mat4

/-- `vertexes.flat()`: each input 4-vector contributes its four
coordinates consecutively. -/
def flat4 (l : List (Fin 4 → ℝ)) : List ℝ := l.flatMap (fun v => [v 0, v 1, v 2, v 3])

/-- The `Object4D` constructor: flattens the vertex array, copies it into
`transformedVertexes` (`new Float32Array(this.vertexes)`), stores the edge
and face index lists, keeps the initializer `rot` (all angles 0), and sets
`matrix4D` with `fromArray([1,0,0,0, 0,1,0,0, 0,0,1,0, 0,0,0,1])`. -/
def mkObject4D (verts : List (Fin 4 → ℝ)) (edges : List (ℕ × ℕ))
    (faces : List (ℕ × ℕ × ℕ)) : Object4D :=
  { vertexes := flat4 verts
    transformedVertexes := flat4 verts
    edgesIdx := edges
    facesIdx := faces
    rot := rotZero
    matrix4D := mat4FromList
      [1, 0, 0, 0,
       0, 1, 0, 0,
       0, 0, 1, 0,
       0, 0, 0, 1] }

/-- External mutation of the (public) `rot` field, as performed by the UI
callbacks. -/
def setRot (o : Object4D) (r : Rot) : Object4D := { o with rot := r }

/-- `Object4D.updateMatrix4D`: recompute `matrix4D` from `rot`. -/
noncomputable def updateMatrix4D (o : Object4D) : Object4D :=
  { o with matrix4D := computeMatrix4D o.rot }

/-- `Object4D.updateVertexes`: recompute the transformed buffer block-wise
from the original buffer and `matrix4D`.  (Setting the children's
`needsUpdate` dirty flags is a display-layer effect, not modelled.) -/
def updateVertexes (o : Object4D) : Object4D :=
  { o with transformedVertexes := applyBlocks o.matrix4D o.vertexes }

/-- The bit-extraction array `vert` used by the generators:
`[i % 2, (i % 4 - i % 2) / 2, (i % 8 - i % 4) / 4, (i % 16 - i % 8) / 8]`.
In JS these divisions are exact (the numerators are multiples of the
divisors), so natural subtraction and division compute the same values. -/
def vertBit (i : ℕ) : Fin 4 → ℕ
  | 0 => i % 2
  | 1 => (i % 4 - i % 2) / 2
  | 2 => (i % 8 - i % 4) / 4
  | 3 => (i % 16 - i % 8) / 8

/-- The per-axis side lengths (lx, ly, lz, lt). -/
def sideLen (lx ly lz lt : ℝ) : Fin 4 → ℝ
  | 0 => lx
  | 1 => ly
  | 2 => lz
  | 3 => lt

/-- `hyperboxVertexes`: for i in [0, 2^4) emit the vertex whose axis-k
coordinate is `length_k * (bit_k(i) - 0.5)`. -/
def hyperboxVertexes (lx ly lz lt : ℝ) : List (Fin 4 → ℝ) :=
  (List.range (2 ^ 4)).map (fun i k => sideLen lx ly lz lt k * ((vertBit i k : ℝ) - 0.5))

/-- `hyperboxEdges`: for i in [0, 2^4) and dir in [0,1,2,3], if
`vert[dir] == 0` push `[i, i + 2 ** dir]`. -/
def hyperboxEdges : List (ℕ × ℕ) :=
  (List.range (2 ^ 4)).flatMap (fun i =>
    ([0, 1, 2, 3] : List (Fin 4)).flatMap (fun dir =>
      if vertBit i dir = 0 then [(i, i + 2 ^ dir.val)] else []))

/-- `hypercubeFaces`: for i in [0, 2^4) and dir1, dir2 in [0,1,2,3], if
`dir2 > dir1 && vert[dir1] == 0 && vert[dir2] == 0` push the two
triangles `[i, i+2^dir1, i+2^dir1+2^dir2]` and
`[i, i+2^dir1+2^dir2, i+2^dir2]`. -/
def hypercubeFaces : List (ℕ × ℕ × ℕ) :=
  (List.range (2 ^ 4)).flatMap (fun i =>
    ([0, 1, 2, 3] : List (Fin 4)).flatMap (fun dir1 =>
      ([0, 1, 2, 3] : List (Fin 4)).flatMap (fun dir2 =>
        if dir1 < dir2 ∧ vertBit i dir1 = 0 ∧ vertBit i dir2 = 0 then
          [(i, i + 2 ^ dir1.val, i + 2 ^ dir1.val + 2 ^ dir2.val),
           (i, i + 2 ^ dir1.val + 2 ^ dir2.val, i + 2 ^ dir2.val)]
        else [])))

/-- `Hyperbox`: construct the hyper-rectangle `Object4D`. -/
def Hyperbox (lx ly lz lt : ℝ) : Object4D :=
  mkObject4D (hyperboxVertexes lx ly lz lt) hyperboxEdges hypercubeFaces

/-- The two re-projection operations whose call sequences claim C9
quantifies over. -/
inductive Op where
  | updateM : Op
  | updateV : Op

/-- Run one operation. -/
noncomputable def applyOp : Op → Object4D → Object4D
  | Op.updateM, o => updateMatrix4D o
  | Op.updateV, o => updateVertexes o

/-- Run a sequence of operations, first element first. -/
noncomputable def applyOps (ops : List Op) (o : Object4D) : Object4D :=
  ops.foldl (fun acc op => applyOp op acc) o

/-! Claim-side definitions, written from the words of the spec/claims. -/

/-- Written from claim C1: the 4×4 identity with the 2×2 block
(cos θ, sin θ, −sin θ, cos θ) substituted at the rows/columns of the
plane axes a and b, the four block entries taken in the element order in
which the source lists them (array positions (a,a), (b,a), (a,b), (b,b)). -/
noncomputable def planeRot (a b : Fin 4) (θ : ℝ) : Mat4 := fun r c =>
  if r = a ∧ c = a then cos θ
  else if r = b ∧ c = a then sin θ
  else if r = a ∧ c = b then -sin θ
  else if r = b ∧ c = b then cos θ
  else if r = c then 1 else 0

/-- Written from the amended claim C2: each consecutive 4-vector
(x, y, z, t) of the buffer is replaced by its image under the matrix. -/
def perVec4 (M : Mat4) : List ℝ → List ℝ
  | x :: y :: z :: t :: rest =>
    (M 0 0 * x + M 0 1 * y + M 0 2 * z + M 0 3 * t) ::
    (M 1 0 * x + M 1 1 * y + M 1 2 * z + M 1 3 * t) ::
    (M 2 0 * x + M 2 1 * y + M 2 2 * z + M 2 3 * t) ::
    (M 3 0 * x + M 3 1 * y + M 3 2 * z + M 3 3 * t) :: perVec4 M rest
  | rest => rest

/-- Written from claim C2 as stated: read a 16-real block as a 4×4 matrix
in row-major order. -/
def rowMajorFromList (l : List ℝ) : Mat4 := fun r c => l.getD (4 * r.val + c.val) 0

/-- Written from claim C2 as stated: write a 4×4 matrix back as 16 reals
in row-major order. -/
def rowMajorToList (m : Mat4) : List ℝ :=
  [m 0 0, m 0 1, m 0 2, m 0 3,
   m 1 0, m 1 1, m 1 2, m 1 3,
   m 2 0, m 2 1, m 2 2, m 2 3,
   m 3 0, m 3 1, m 3 2, m 3 3]

/-- Written from claim C2 as stated: each contiguous block of 16 reals,
interpreted as a 4×4 matrix in row-major order, is left-multiplied by the
transform and the product written into the corresponding block. -/
def rowMajorBlocks (M : Mat4) : List ℝ → List ℝ
  | x0 :: x1 :: x2 :: x3 :: x4 :: x5 :: x6 :: x7 ::
    x8 :: x9 :: x10 :: x11 :: x12 :: x13 :: x14 :: x15 :: rest =>
      rowMajorToList (matMul M (rowMajorFromList
        [x0, x1, x2, x3, x4, x5, x6, x7, x8, x9, x10, x11, x12, x13, x14, x15])) ++
      rowMajorBlocks M rest
  | rest => rest

/-- Written from claim C5: emit the edge (i, i + 2^dir) for exactly the
pairs of i in [0,16) and dir in [0,4) with bit dir of i equal to 0. -/
def specHyperboxEdges : List (ℕ × ℕ) :=
  (List.range 16).flatMap (fun i =>
    (List.range 4).flatMap (fun d =>
      if Nat.testBit i d = false then [(i, i + 2 ^ d)] else []))

/-! Helper lemmas. -/

lemma matMul_id_left (A : Mat4) : matMul mat4Identity A = A := by
  funext r c
  fin_cases r <;> simp +decide [matMul, mat4Identity]

lemma matMul_id_right (A : Mat4) : matMul A mat4Identity = A := by
  funext r c
  fin_cases c <;> simp +decide [matMul, mat4Identity]

lemma mat4FromList_identity :
    mat4FromList [1, 0, 0, 0, 0, 1, 0, 0, 0, 0, 1, 0, 0, 0, 0, 1] = mat4Identity := by
  funext r c
  fin_cases r <;> fin_cases c <;> simp [mat4FromList, mat4Identity]

lemma dXY_eq_planeRot (θ : ℝ) : dXY θ = planeRot 0 1 θ := by
  funext r c
  fin_cases r <;> fin_cases c <;> simp +decide [dXY, planeRot, mat4FromList]

lemma dYZ_eq_planeRot (θ : ℝ) : dYZ θ = planeRot 1 2 θ := by
  funext r c
  fin_cases r <;> fin_cases c <;> simp +decide [dYZ, planeRot, mat4FromList]

lemma dXZ_eq_planeRot (θ : ℝ) : dXZ θ = planeRot 0 2 θ := by
  funext r c
  fin_cases r <;> fin_cases c <;> simp +decide [dXZ, planeRot, mat4FromList]

lemma dXT_eq_planeRot (θ : ℝ) : dXT θ = planeRot 0 3 θ := by
  funext r c
  fin_cases r <;> fin_cases c <;> simp +decide [dXT, planeRot, mat4FromList]

lemma dYT_eq_planeRot (θ : ℝ) : dYT θ = planeRot 1 3 θ := by
  funext r c
  fin_cases r <;> fin_cases c <;> simp +decide [dYT, planeRot, mat4FromList]

lemma dZT_eq_planeRot (θ : ℝ) : dZT θ = planeRot 2 3 θ := by
  funext r c
  fin_cases r <;> fin_cases c <;> simp +decide [dZT, planeRot, mat4FromList]

lemma dXY_zero : dXY 0 = mat4Identity := by
  funext r c
  fin_cases r <;> fin_cases c <;> simp [dXY, mat4Identity, mat4FromList]

lemma dYZ_zero : dYZ 0 = mat4Identity := by
  funext r c
  fin_cases r <;> fin_cases c <;> simp [dYZ, mat4Identity, mat4FromList]

lemma dXZ_zero : dXZ 0 = mat4Identity := by
  funext r c
  fin_cases r <;> fin_cases c <;> simp [dXZ, mat4Identity, mat4FromList]

lemma dXT_zero : dXT 0 = mat4Identity := by
  funext r c
  fin_cases r <;> fin_cases c <;> simp [dXT, mat4Identity, mat4FromList]

lemma dYT_zero : dYT 0 = mat4Identity := by
  funext r c
  fin_cases r <;> fin_cases c <;> simp [dYT, mat4Identity, mat4FromList]

lemma dZT_zero : dZT 0 = mat4Identity := by
  funext r c
  fin_cases r <;> fin_cases c <;> simp [dZT, mat4Identity, mat4FromList]

lemma computeMatrix4D_zero : computeMatrix4D rotZero = mat4Identity := by
  simp only [computeMatrix4D, rotZero, dXY_zero, dYZ_zero, dXZ_zero, dXT_zero,
    dYT_zero, dZT_zero, matMul_id_left, matMul_id_right]

lemma computeMatrix4D_single_xy (θ : ℝ) :
    computeMatrix4D { rotZero with xy := θ } = dXY θ := by
  simp only [computeMatrix4D, rotZero, dYZ_zero, dXZ_zero, dXT_zero,
    dYT_zero, dZT_zero, matMul_id_left, matMul_id_right]

lemma exists_block (l : List ℝ) (h : 16 ≤ l.length) :
    ∃ x0 x1 x2 x3 x4 x5 x6 x7 x8 x9 x10 x11 x12 x13 x14 x15 rest,
      l = x0 :: x1 :: x2 :: x3 :: x4 :: x5 :: x6 :: x7 ::
          x8 :: x9 :: x10 :: x11 :: x12 :: x13 :: x14 :: x15 :: rest := by
  rcases l with _ | ⟨x0, _ | ⟨x1, _ | ⟨x2, _ | ⟨x3, _ | ⟨x4, _ | ⟨x5, _ | ⟨x6, _ | ⟨x7,
    _ | ⟨x8, _ | ⟨x9, _ | ⟨x10, _ | ⟨x11, _ | ⟨x12, _ | ⟨x13, _ | ⟨x14, _ | ⟨x15,
    rest⟩⟩⟩⟩⟩⟩⟩⟩⟩⟩⟩⟩⟩⟩⟩⟩ <;>
  first
    | exact ⟨x0, x1, x2, x3, x4, x5, x6, x7, x8, x9, x10, x11, x12, x13, x14, x15, rest, rfl⟩
    | (exfalso; simp at h)

lemma applyBlocks_eq_perVec4 (M : Mat4) (l : List ℝ) (hd : 16 ∣ l.length) :
    applyBlocks M l = perVec4 M l := by
  induction l using applyBlocks.induct M with
  | case1 x0 x1 x2 x3 x4 x5 x6 x7 x8 x9 x10 x11 x12 x13 x14 x15 rest ih =>
    simp only [List.length_cons] at hd
    have hrest : applyBlocks M rest = perVec4 M rest := ih (by omega)
    rw [applyBlocks, perVec4, perVec4, perVec4, perVec4, hrest]
    rfl
  | case2 rest h =>
    have hlen : rest.length = 0 := by
      by_contra hne
      have h16 : 16 ≤ rest.length := by omega
      obtain ⟨x0, x1, x2, x3, x4, x5, x6, x7, x8, x9, x10, x11, x12, x13, x14, x15, r, hr⟩ :=
        exists_block rest h16
      exact h x0 x1 x2 x3 x4 x5 x6 x7 x8 x9 x10 x11 x12 x13 x14 x15 r hr
    rcases List.length_eq_zero.mp hlen with rfl
    rfl

lemma perVec4_id (l : List ℝ) : perVec4 mat4Identity l = l := by
  induction l using perVec4.induct mat4Identity with
  | case1 x y z t rest ih =>
    rw [perVec4, ih]
    simp [mat4Identity]
  | case2 rest h =>
    rcases rest with _ | ⟨x, _ | ⟨y, _ | ⟨z, _ | ⟨t, rest⟩⟩⟩⟩
    · rfl
    · rfl
    · rfl
    · rfl
    · exact absurd rfl (h x y z t rest)

lemma toNat_testBit (m n : ℕ) : (Nat.testBit m n).toNat = m / 2 ^ n % 2 := by
  rw [Nat.testBit_to_div_mod]
  rcases h : decide (m / 2 ^ n % 2 = 1)
  · simp at h
    simp
    omega
  · simp at h
    simp [h]

lemma vertBit_eq_testBit (i : ℕ) (k : Fin 4) :
    vertBit i k = (Nat.testBit i k.val).toNat := by
  fin_cases k <;> rw [toNat_testBit] <;> norm_num [vertBit] <;> omega

lemma hyperbox_coord (lx ly lz lt : ℝ) (i : Fin 16) (k : Fin 4) :
    (hyperboxVertexes lx ly lz lt).getD i.val (fun _ => 0) k =
      if Nat.testBit i.val k.val then sideLen lx ly lz lt k / 2
      else -(sideLen lx ly lz lt k / 2) := by
  have hlen : i.val < (hyperboxVertexes lx ly lz lt).length := by
    simp [hyperboxVertexes]
  rw [List.getD_eq_getElem _ _ hlen]
  have : (hyperboxVertexes lx ly lz lt)[i.val] =
      fun k => sideLen lx ly lz lt k * ((vertBit i.val k : ℝ) - 0.5) := by
    simp [hyperboxVertexes]
  rw [this]
  simp only [vertBit_eq_testBit]
  rcases h : Nat.testBit i.val k.val <;> simp [h] <;> ring_nf

/-! The claims. -/

/-- C1: updateMatrix4D builds six elementary 4×4 rotation matrices, one per
coordinate plane (xy, yz, xz, xt, yt, zt), each equal to the identity with
a 2×2 block (cos θ, sin θ, −sin θ, cos θ) substituted at the rows/columns
of that plane's two axes (see `planeRot`; the four block entries are taken
in the element order in which the source arrays list them), and composes
them by right-multiplying onto an identity accumulator in exactly the
fixed order xt, yt, zt, xy, yz, xz, yielding Transform4D. -/
theorem claim1_updateMatrix4D_composition (o : Object4D) :
    (updateMatrix4D o).matrix4D =
      matMul (matMul (matMul (matMul (matMul (matMul mat4Identity
        (planeRot 0 3 o.rot.xt)) (planeRot 1 3 o.rot.yt)) (planeRot 2 3 o.rot.zt))
        (planeRot 0 1 o.rot.xy)) (planeRot 1 2 o.rot.yz)) (planeRot 0 2 o.rot.xz) := by
  show computeMatrix4D o.rot = _
  rw [computeMatrix4D, dXT_eq_planeRot, dYT_eq_planeRot, dZT_eq_planeRot,
    dXY_eq_planeRot, dYZ_eq_planeRot, dXZ_eq_planeRot]

/-- C3: if all six rotation angles are 0, then after updateMatrix4D the
Transform4D matrix equals the 4×4 identity, and after updateVertexes the
transformed vertex buffer equals the original vertex buffer exactly.
The buffer-length hypothesis records the spec invariant that the buffer
packs whole 16-real blocks, which the JS block loop requires. -/
theorem claim3_zero_angles_identity (o : Object4D) (hrot : o.rot = rotZero)
    (hlen : 16 ∣ o.vertexes.length) :
    (updateMatrix4D o).matrix4D = mat4Identity ∧
    (updateVertexes (updateMatrix4D o)).transformedVertexes = o.vertexes := by
  have hm : computeMatrix4D o.rot = mat4Identity := by rw [hrot]; exact computeMatrix4D_zero
  refine ⟨hm, ?_⟩
  show applyBlocks (computeMatrix4D o.rot) o.vertexes = o.vertexes
  rw [hm, applyBlocks_eq_perVec4 _ _ hlen, perVec4_id]

/-- C3 witness: the canonical hyper-rectangle satisfies the hypotheses. -/
theorem claim3_witness :
    (Hyperbox 1 1 1 1).rot = rotZero ∧ 16 ∣ (Hyperbox 1 1 1 1).vertexes.length ∧
    ((updateMatrix4D (Hyperbox 1 1 1 1)).matrix4D = mat4Identity ∧
      (updateVertexes (updateMatrix4D (Hyperbox 1 1 1 1))).transformedVertexes =
        (Hyperbox 1 1 1 1).vertexes) := by
  refine ⟨rfl, ⟨4, ?_⟩, claim3_zero_angles_identity _ rfl ⟨4, ?_⟩⟩ <;> rfl

/-- C4: for all edge lengths and every index i in [0,16), vertex i of
hyperboxVertexes has, on each axis k, coordinate −(length k)/2 if bit k of
i is 0 and +(length k)/2 if bit k is 1; with lx=2, ly=4, lz=6, lt=8,
vertex 0 is (-1,-2,-3,-4) and vertex 15 is (1,2,3,4). -/
theorem claim4_hyperbox_vertex_coords :
    (∀ (lx ly lz lt : ℝ) (i : Fin 16) (k : Fin 4),
        (hyperboxVertexes lx ly lz lt).getD i.val (fun _ => 0) k =
          if Nat.testBit i.val k.val then sideLen lx ly lz lt k / 2
          else -(sideLen lx ly lz lt k / 2)) ∧
    (hyperboxVertexes 2 4 6 8).getD 0 (fun _ => 0) = ![(-1 : ℝ), -2, -3, -4] ∧
    (hyperboxVertexes 2 4 6 8).getD 15 (fun _ => 0) = ![(1 : ℝ), 2, 3, 4] := by
  refine ⟨fun lx ly lz lt i k => hyperbox_coord lx ly lz lt i k, ?_, ?_⟩ <;>
    funext k <;> fin_cases k <;>
    norm_num [hyperboxVertexes, vertBit, sideLen, List.getD]

/-- C6: with lx=ly=lz=lt=1 the generators produce exactly 16 vertices,
exactly 32 edges and exactly 48 triangular faces, and every coordinate of
every generated vertex is +0.5 or −0.5. -/
theorem claim6_canonical_counts :
    (hyperboxVertexes 1 1 1 1).length = 16 ∧
    hyperboxEdges.length = 32 ∧
    hypercubeFaces.length = 48 ∧
    ∀ (i : Fin 16) (k : Fin 4),
      (hyperboxVertexes 1 1 1 1).getD i.val (fun _ => 0) k = 0.5 ∨
      (hyperboxVertexes 1 1 1 1).getD i.val (fun _ => 0) k = -0.5 := by
  refine ⟨by simp [hyperboxVertexes], by decide, by decide, fun i k => ?_⟩
  rw [hyperbox_coord]
  rcases Nat.testBit i.val k.val
  · right
    fin_cases k <;> norm_num [sideLen]
  · left
    fin_cases k <;> norm_num [sideLen]

/-- C2 counterexample: the claim reads each 16-real block as a 4×4 matrix
in row-major order and left-multiplies it by Transform4D, but
THREE.Matrix4.fromArray/toArray are column-major; on a reachable object
(constructed, rotated by π/2 in the xy plane, matrix recomputed) the two
computations give different buffers. -/
noncomputable def c2Start : Object4D :=
  updateMatrix4D (setRot
    (mkObject4D [![1, 0, 0, 0], ![0, 0, 0, 0], ![0, 0, 0, 0], ![0, 0, 0, 0]] [] [])
    { rotZero with xy := Real.pi / 2 })

/-- C2 is false as stated: on `c2Start` the buffer computed by
updateVertexes differs from the row-major reading prescribed by the claim
(the actual buffer has sin(π/2) = 1 at position 1; the row-major
prediction has 0 there). -/
theorem claim2_counterexample :
    (updateVertexes c2Start).transformedVertexes ≠
      rowMajorBlocks c2Start.matrix4D c2Start.vertexes := by
  intro h
  have h1 : (applyBlocks c2Start.matrix4D c2Start.vertexes).getD 1 0 =
      (rowMajorBlocks c2Start.matrix4D c2Start.vertexes).getD 1 0 := by
    rw [show applyBlocks c2Start.matrix4D c2Start.vertexes =
        (updateVertexes c2Start).transformedVertexes from rfl, h]
  have hM : c2Start.matrix4D = dXY (Real.pi / 2) := computeMatrix4D_single_xy _
  rw [hM] at h1
  have hL : (applyBlocks (dXY (Real.pi / 2)) c2Start.vertexes).getD 1 0 =
      Real.sin (Real.pi / 2) := by
    show Real.sin (Real.pi / 2) * 1 + Real.cos (Real.pi / 2) * 0 + 0 * 0 + 0 * 0 =
      Real.sin (Real.pi / 2)
    ring
  have hR : (rowMajorBlocks (dXY (Real.pi / 2)) c2Start.vertexes).getD 1 0 = 0 := by
    show Real.cos (Real.pi / 2) * 0 + -Real.sin (Real.pi / 2) * 0 + 0 * 0 + 0 * 0 = 0
    ring
  rw [hL, hR, Real.sin_pi_div_two] at h1
  exact one_ne_zero h1

/-- C2 amended: for every Object4D whose buffer packs whole 16-real
blocks, updateVertexes computes the transformed buffer by taking each
contiguous block of 16 reals, interpreting it as a 4×4 matrix in
COLUMN-major order (four 4-vectors packed as the four columns),
left-multiplying that block by Transform4D and writing the product back in
column-major order — equivalently, replacing each consecutive 4-vector v
of the buffer by Transform4D · v (the statement proved here, with the
claim-side per-vector map `perVec4`). -/
theorem claim2_blockwise_transform (o : Object4D) (hlen : 16 ∣ o.vertexes.length) :
    (updateVertexes o).transformedVertexes = perVec4 o.matrix4D o.vertexes :=
  applyBlocks_eq_perVec4 o.matrix4D o.vertexes hlen

/-- C2 witness: the canonical hyper-rectangle has a 64-real buffer. -/
theorem claim2_witness :
    16 ∣ (Hyperbox 1 1 1 1).vertexes.length ∧
    (updateVertexes (Hyperbox 1 1 1 1)).transformedVertexes =
      perVec4 (Hyperbox 1 1 1 1).matrix4D (Hyperbox 1 1 1 1).vertexes :=
  ⟨⟨4, rfl⟩, claim2_blockwise_transform _ ⟨4, rfl⟩⟩

/-- C5: hyperboxEdges contains the edge (i, i + 2^dir) for exactly those
pairs of a vertex index i in [0,16) and an axis dir in [0,4) where bit dir
of i is 0 (stated as equality with the claim-side generator
`specHyperboxEdges`, which also fixes multiplicity and order), and every
generated edge connects two vertices whose indices differ in exactly one
bit, i.e. whose XOR is a power of two. -/
theorem claim5_hyperbox_edges :
    hyperboxEdges = specHyperboxEdges ∧
    ∀ p ∈ hyperboxEdges, ∃ k, p.1 ^^^ p.2 = 2 ^ k := by
  refine ⟨by decide, ?_⟩
  have h : ∀ p ∈ hyperboxEdges, (p.1 ^^^ p.2) ∈ [1, 2, 4, 8] := by decide
  intro p hp
  have h2 := h p hp
  simp only [List.mem_cons, List.not_mem_nil, or_false] at h2
  rcases h2 with h1 | h1 | h1 | h1
  · exact ⟨0, by rw [h1]; norm_num⟩
  · exact ⟨1, by rw [h1]; norm_num⟩
  · exact ⟨2, by rw [h1]; norm_num⟩
  · exact ⟨3, by rw [h1]; norm_num⟩

/-- C5 witness at the first generated edge (0, 1). -/
theorem claim5_witness :
    ((0 : ℕ), (1 : ℕ)) ∈ hyperboxEdges ∧
    ∃ k, ((0 : ℕ), (1 : ℕ)).1 ^^^ ((0 : ℕ), (1 : ℕ)).2 = 2 ^ k :=
  ⟨by decide, claim5_hyperbox_edges.2 (0, 1) (by decide)⟩

/-- C7: every vertex index referenced by any edge of hyperboxEdges and any
face triangle of hypercubeFaces lies in [0, 16). -/
theorem claim7_indices_in_range :
    (∀ p ∈ hyperboxEdges, p.1 < 16 ∧ p.2 < 16) ∧
    (∀ f ∈ hypercubeFaces, f.1 < 16 ∧ f.2.1 < 16 ∧ f.2.2 < 16) := by
  constructor <;> decide

/-- C7 witness at the first edge (0, 1) and the first face (0, 1, 3). -/
theorem claim7_witness :
    (((0 : ℕ), (1 : ℕ)) ∈ hyperboxEdges ∧ (0 : ℕ) < 16 ∧ (1 : ℕ) < 16) ∧
    (((0 : ℕ), (1 : ℕ), (3 : ℕ)) ∈ hypercubeFaces ∧
      (0 : ℕ) < 16 ∧ (1 : ℕ) < 16 ∧ (3 : ℕ) < 16) :=
  ⟨⟨by decide, claim7_indices_in_range.1 (0, 1) (by decide)⟩,
   ⟨by decide, claim7_indices_in_range.2 (0, 1, 3) (by decide)⟩⟩

/-- The six rotation planes. -/
inductive Plane where
  | xy : Plane
  | xz : Plane
  | yz : Plane
  | xt : Plane
  | yt : Plane
  | zt : Plane

/-- Rotate a plane by an increment: add δ to the stored angle of that
plane, as the UI rotation controls do. -/
def rotatePlane (p : Plane) (δ : ℝ) (r : Rot) : Rot :=
  match p with
  | Plane.xy => { r with xy := r.xy + δ }
  | Plane.xz => { r with xz := r.xz + δ }
  | Plane.yz => { r with yz := r.yz + δ }
  | Plane.xt => { r with xt := r.xt + δ }
  | Plane.yt => { r with yt := r.yt + δ }
  | Plane.zt => { r with zt := r.zt + δ }

/-- C8: for every angle θ and each single rotation plane (all other angles
0), rotating that plane by θ and then by −θ in sequence, recomputing the
transform between the two rotations, returns Transform4D to the identity
matrix. -/
theorem claim8_rotation_inverse (o : Object4D) (p : Plane) (θ : ℝ)
    (h : o.rot = rotZero) :
    (updateMatrix4D (setRot (updateMatrix4D (setRot o (rotatePlane p θ o.rot)))
        (rotatePlane p (-θ)
          (updateMatrix4D (setRot o (rotatePlane p θ o.rot))).rot))).matrix4D =
      mat4Identity := by
  show computeMatrix4D (rotatePlane p (-θ) (rotatePlane p θ o.rot)) = mat4Identity
  rw [h]
  have hz : rotatePlane p (-θ) (rotatePlane p θ rotZero) = rotZero := by
    cases p <;> simp [rotatePlane, rotZero]
  rw [hz, computeMatrix4D_zero]

/-- C8 witness: the canonical hyper-rectangle, xy plane, θ = 1. -/
theorem claim8_witness :
    (Hyperbox 1 1 1 1).rot = rotZero ∧
    (updateMatrix4D (setRot (updateMatrix4D (setRot (Hyperbox 1 1 1 1)
        (rotatePlane Plane.xy 1 (Hyperbox 1 1 1 1).rot)))
        (rotatePlane Plane.xy (-1)
          (updateMatrix4D (setRot (Hyperbox 1 1 1 1)
            (rotatePlane Plane.xy 1 (Hyperbox 1 1 1 1).rot))).rot))).matrix4D =
      mat4Identity :=
  ⟨rfl, claim8_rotation_inverse (Hyperbox 1 1 1 1) Plane.xy 1 rfl⟩

lemma applyOp_vertexes (op : Op) (o : Object4D) :
    (applyOp op o).vertexes = o.vertexes := by
  cases op <;> rfl

lemma applyOp_rot (op : Op) (o : Object4D) : (applyOp op o).rot = o.rot := by
  cases op <;> rfl

/-- An object reachable by constructing the hyper-rectangle and setting
rot.xy := π/2 through the UI path, used to refute claim C9 as stated. -/
noncomputable def c9Start : Object4D :=
  setRot (Hyperbox 1 1 1 1) { rotZero with xy := Real.pi / 2 }

/-- C9 is false as stated: the claim says that under sequences of
updateMatrix4D and updateVertexes only the transformed buffer (and the
children's dirty flags) is modified, but the call updateMatrix4D on an
object whose xy angle is π/2 also modifies matrix4D (entry (0,0) changes
from 1 to cos(π/2) = 0). -/
theorem claim9_counterexample :
    ¬ ((applyOps [Op.updateM] c9Start).vertexes = c9Start.vertexes ∧
       (applyOps [Op.updateM] c9Start).rot = c9Start.rot ∧
       (applyOps [Op.updateM] c9Start).matrix4D = c9Start.matrix4D) := by
  rintro ⟨-, -, h⟩
  have h0 : (applyOps [Op.updateM] c9Start).matrix4D 0 0 = c9Start.matrix4D 0 0 :=
    congrFun (congrFun h 0) 0
  have hL : (applyOps [Op.updateM] c9Start).matrix4D 0 0 = 0 := by
    show computeMatrix4D c9Start.rot 0 0 = 0
    have hM : computeMatrix4D c9Start.rot = dXY (Real.pi / 2) :=
      computeMatrix4D_single_xy _
    rw [hM]
    show Real.cos (Real.pi / 2) = 0
    exact Real.cos_pi_div_two
  have hR : c9Start.matrix4D 0 0 = 1 := rfl
  rw [hL, hR] at h0
  exact zero_ne_one h0

/-- C9 amended: the field vertexes is left unchanged by every sequence of
updateMatrix4D and updateVertexes calls (so is rot); updateVertexes
modifies only the transformed buffer (and the children's dirty flags, not
modelled), and updateMatrix4D modifies only matrix4D. -/
theorem claim9_frame (o : Object4D) (ops : List Op) :
    (applyOps ops o).vertexes = o.vertexes ∧
    (applyOps ops o).rot = o.rot ∧
    (∀ q : Object4D, (updateVertexes q).vertexes = q.vertexes ∧
      (updateVertexes q).rot = q.rot ∧ (updateVertexes q).matrix4D = q.matrix4D ∧
      (updateVertexes q).edgesIdx = q.edgesIdx ∧
      (updateVertexes q).facesIdx = q.facesIdx) ∧
    (∀ q : Object4D, (updateMatrix4D q).vertexes = q.vertexes ∧
      (updateMatrix4D q).rot = q.rot ∧
      (updateMatrix4D q).transformedVertexes = q.transformedVertexes ∧
      (updateMatrix4D q).edgesIdx = q.edgesIdx ∧
      (updateMatrix4D q).facesIdx = q.facesIdx) := by
  refine ⟨?_, ?_, fun q => ⟨rfl, rfl, rfl, rfl, rfl⟩,
    fun q => ⟨rfl, rfl, rfl, rfl, rfl⟩⟩
  · induction ops generalizing o with
    | nil => rfl
    | cons op ops ih =>
      rw [show applyOps (op :: ops) o = applyOps ops (applyOp op o) from rfl,
        ih (applyOp op o), applyOp_vertexes]
  · induction ops generalizing o with
    | nil => rfl
    | cons op ops ih =>
      rw [show applyOps (op :: ops) o = applyOps ops (applyOp op o) from rfl,
        ih (applyOp op o), applyOp_rot]

/-- C10: immediately after construction, all six rotation angles are 0,
matrix4D equals the 4×4 identity, and the transformed vertex buffer is
element-wise equal to (hence of the same length as) the original buffer. -/
theorem claim10_constructor_state (verts : List (Fin 4 → ℝ))
    (edges : List (ℕ × ℕ)) (faces : List (ℕ × ℕ × ℕ)) :
    (mkObject4D verts edges faces).rot = rotZero ∧
    (mkObject4D verts edges faces).matrix4D = mat4Identity ∧
    (mkObject4D verts edges faces).transformedVertexes =
      (mkObject4D verts edges faces).vertexes ∧
    (mkObject4D verts edges faces).transformedVertexes.length =
      (mkObject4D verts edges faces).vertexes.length :=
  ⟨rfl, mat4FromList_identity, rfl, rfl⟩

end Tesseract
